import Mathlib

/-!
Verification of the record serialization engine and model conventions of
`src/aswwu/models.py`.

The embedding models Python values relevant to the record fields as the
inductive type `Value`, a record instance as its declared column list plus
an attribute map, and translates `Base.to_json`, `ElectionBase.to_json`,
`Profile.base_info`, `Volunteer.only_true` and the table-naming rule into
executable Lean definitions.
-/

/-- A Python value as it may appear in a record field: strings, integers,
booleans, `None`, and an opaque object whose string conversion raises. -/
inductive Value where
  | VStr (s : String)
  | VInt (n : Int)
  | VBool (b : Bool)
  | VNone
  | VOpaque
deriving DecidableEq, Repr

/-- Python `str(value)`: total on the ordinary values, fails (raises) on the
opaque value.  This is the fallible conversion step guarded by the
`try/except` in `to_json` (models.py lines 43-46). -/
def strOf : Value → Option String
  | .VStr s => some s
  | .VInt n => some (toString n)
  | .VBool b => some (if b then "True" else "False")
  | .VNone => some "None"
  | .VOpaque => none

/-- Python `==` on the modelled values: same-type structural equality, plus
the cross-type numeric equalities `True == 1` and `False == 0`; every other
cross-type comparison is unequal (in particular `False == ""` and
`None == ""` are Python-false). -/
def pyEq : Value → Value → Bool
  | .VStr a, .VStr b => a == b
  | .VInt a, .VInt b => a == b
  | .VBool a, .VBool b => a == b
  | .VBool a, .VInt b => (if a then (1 : Int) else 0) == b
  | .VInt a, .VBool b => a == (if b then (1 : Int) else 0)
  | .VNone, .VNone => true
  | _, _ => false

/-- A record instance: the declared column names of its table
(`self.__table__.columns`, models.py line 30) and its attribute map.
`getattr` succeeds exactly on the names present in `attrs`. -/
structure Record where
  columns : List String
  attrs : List (String × Value)
deriving DecidableEq, Repr

/-- Python `getattr(self, key)` on a record: looks the name up in the
attribute map; `none` models the `AttributeError` raised for a name that is
not an attribute (models.py line 40, outside the `try`). -/
def pygetattr (r : Record) (key : String) : Option Value :=
  r.attrs.lookup key

/-- The keyword options of `to_json`: `skipList` (default `[]`) and
`limitList` (default: all declared columns, modelled by `none`),
models.py lines 33-36. -/
structure JsonOptions where
  skipList : List String := []
  limitList : Option (List String) := none

/-- Python dict assignment `obj[key] = value`: replaces in place if the key
is present, appends otherwise. -/
def dictInsert (obj : List (String × String)) (key val : String) :
    List (String × String) :=
  if obj.any (fun p => p.1 == key) then
    obj.map (fun p => if p.1 == key then (key, val) else p)
  else
    obj ++ [(key, val)]

/-- The key list of an output mapping. -/
def keysOf (obj : List (String × String)) : List String :=
  obj.map Prod.fst

namespace Base

/-- The loop of `Base.to_json` (models.py lines 37-46): for each key of the
limit list not in the skip list, read the attribute (`AttributeError`
propagates as `.error`), then try the string conversion, silently dropping
the field when it fails. -/
def to_jsonGo (r : Record) (skipList : List String) :
    List String → List (String × String) → Except String (List (String × String))
  | [], obj => .ok obj
  | key :: rest, obj =>
    if key ∈ skipList then
      to_jsonGo r skipList rest obj
    else
      match pygetattr r key with
      | none => .error "AttributeError"
      | some v =>
        match strOf v with
        | some s => to_jsonGo r skipList rest (dictInsert obj key s)
        | none => to_jsonGo r skipList rest obj

/-- `Base.to_json` (models.py lines 27-47): the skip list is `id` plus the
caller-supplied skip list; the limit list defaults to all declared columns. -/
def to_json (r : Record) (opts : JsonOptions) :
    Except String (List (String × String)) :=
  to_jsonGo r ("id" :: opts.skipList) (opts.limitList.getD r.columns) []

end Base

namespace ElectionBase

/-- The loop of `ElectionBase.to_json` (models.py lines 187-196), declared
separately in the source as a verbatim duplicate of the `Base` loop. -/
def to_jsonGo (r : Record) (skipList : List String) :
    List String → List (String × String) → Except String (List (String × String))
  | [], obj => .ok obj
  | key :: rest, obj =>
    if key ∈ skipList then
      to_jsonGo r skipList rest obj
    else
      match pygetattr r key with
      | none => .error "AttributeError"
      | some v =>
        match strOf v with
        | some s => to_jsonGo r skipList rest (dictInsert obj key s)
        | none => to_jsonGo r skipList rest obj

/-- `ElectionBase.to_json` (models.py lines 177-197). -/
def to_json (r : Record) (opts : JsonOptions) :
    Except String (List (String × String)) :=
  to_jsonGo r ("id" :: opts.skipList) (opts.limitList.getD r.columns) []

end ElectionBase

/-- The declared columns of the `Profile` table (models.py lines 61-94, plus
the `id` and `updated_at` columns inherited from `Base`). -/
def profileColumns : List String :=
  ["id", "updated_at", "wwuid", "username", "full_name", "photo", "gender",
   "birthday", "email", "phone", "website", "majors", "minors", "graduate",
   "preprofessional", "class_standing", "high_school", "class_of",
   "relationship_status", "attached_to", "quote", "quote_author", "hobbies",
   "career_goals", "favorite_books", "favorite_food", "favorite_movies",
   "favorite_music", "pet_peeves", "personality", "views", "privacy",
   "department", "office", "office_hours"]

namespace Profile

/-- `Profile.base_info` (models.py lines 98-99): `to_json` limited to the
five public fields. -/
def base_info (r : Record) : Except String (List (String × String)) :=
  Base.to_json r
    { limitList := some ["username", "full_name", "photo", "email", "views"] }

end Profile

/-- The declared columns of the `Volunteer` table (models.py lines 103-149,
plus the `id` column inherited from `Base`; `updated_at` is redeclared in the
class body). -/
def volunteerColumns : List String :=
  ["id", "updated_at", "wwuid", "campus_ministries", "student_missions",
   "aswwu", "circle_church", "university_church", "buddy_program", "assist",
   "lead", "audio_slash_visual", "health_promotion",
   "construction_experience", "outdoor_slash_camping", "concert_assistance",
   "event_set_up", "children_ministries", "children_story",
   "art_poetry_slash_painting_slash_sculpting", "organizing_events",
   "organizing_worship_opportunities", "organizing_community_outreach",
   "bible_study", "wycliffe_bible_translator_representative",
   "food_preparation", "graphic_design", "poems_slash_spoken_word",
   "prayer_team_slash_prayer_house",
   "dorm_encouragement_and_assisting_chaplains", "scripture_reading",
   "speaking", "videography", "drama", "public_school_outreach",
   "retirement_slash_nursing_home_outreach",
   "helping_the_homeless_slash_disadvantaged", "working_with_youth",
   "working_with_children", "greeting", "shofar_for_vespers", "music",
   "join_small_groups", "lead_small_groups", "can_transport_things",
   "languages", "wants_to_be_involved"]

/-- The `Volunteer` columns declared with type `Boolean` (models.py lines
105-148: every survey column except the `String`-typed `wwuid`, `music` and
`languages`). -/
def volunteerBoolColumns : List String :=
  ["campus_ministries", "student_missions", "aswwu", "circle_church",
   "university_church", "buddy_program", "assist", "lead",
   "audio_slash_visual", "health_promotion", "construction_experience",
   "outdoor_slash_camping", "concert_assistance", "event_set_up",
   "children_ministries", "children_story",
   "art_poetry_slash_painting_slash_sculpting", "organizing_events",
   "organizing_worship_opportunities", "organizing_community_outreach",
   "bible_study", "wycliffe_bible_translator_representative",
   "food_preparation", "graphic_design", "poems_slash_spoken_word",
   "prayer_team_slash_prayer_house",
   "dorm_encouragement_and_assisting_chaplains", "scripture_reading",
   "speaking", "videography", "drama", "public_school_outreach",
   "retirement_slash_nursing_home_outreach",
   "helping_the_homeless_slash_disadvantaged", "working_with_youth",
   "working_with_children", "greeting", "shofar_for_vespers",
   "join_small_groups", "lead_small_groups", "can_transport_things",
   "wants_to_be_involved"]

/-- One element of the sequence returned by `Volunteer.only_true`: either a
bare field name or a single-entry mapping from a field name to its value. -/
inductive Entry where
  | name (s : String)
  | kv (k : String) (v : Value)
deriving DecidableEq, Repr

namespace Volunteer

/-- The explicit `fields` list scanned by `Volunteer.only_true`
(models.py line 153), transcribed verbatim and in order. -/
def only_true_fields : List String :=
  ["campus_ministries", "student_missions", "aswwu", "circle_church",
   "university_church", "assist", "lead", "audio_slash_visual",
   "health_promotion", "construction_experience", "outdoor_slash_camping",
   "concert_assistance", "event_set_up", "children_ministries",
   "children_story", "art_poetry_slash_painting_slash_sculpting",
   "organizing_events", "organizing_worship_opportunities",
   "organizing_community_outreach", "bible_study",
   "wycliffe_bible_translator_representative", "food_preparation",
   "graphic_design", "poems_slash_spoken_word",
   "prayer_team_slash_prayer_house",
   "dorm_encouragement_and_assisting_chaplains", "scripture_reading",
   "speaking", "videography", "drama", "public_school_outreach",
   "retirement_slash_nursing_home_outreach",
   "helping_the_homeless_slash_disadvantaged", "working_with_youth",
   "working_with_children", "greeting", "shofar_for_vespers", "music",
   "join_small_groups", "lead_small_groups", "can_transport_things",
   "languages", "wants_to_be_involved"]

/-- The loop of `Volunteer.only_true` (models.py lines 155-162): a field
whose value is Python-equal to `True` contributes its name; otherwise a
field whose value is not Python-equal to the empty string contributes a
single-entry mapping when it is `music` or `languages` (the appended value
`self.music` re-reads the attribute, which equals the value already read).
The `none` branch models the `AttributeError` a `getattr` on a non-attribute
would raise; it is unreachable for the fixed field list on a record with the
declared Volunteer columns. -/
def only_trueGo (r : Record) : List String → List Entry
  | [] => []
  | f :: rest =>
    match pygetattr r f with
    | none => only_trueGo r rest
    | some val =>
      (if pyEq val (.VBool true) then [Entry.name f]
       else if pyEq val (.VStr "") then []
       else if f == "music" then [Entry.kv "music" val]
       else if f == "languages" then [Entry.kv "languages" val]
       else []) ++ only_trueGo r rest

/-- `Volunteer.only_true` (models.py lines 152-163). -/
def only_true (r : Record) : List Entry :=
  only_trueGo r only_true_fields

end Volunteer

/-- Whether a character is an English vowel, for the pluralization rules. -/
def isVowel (c : Char) : Bool :=
  c == 'a' || c == 'e' || c == 'i' || c == 'o' || c == 'u'

/-- Suffix test on strings, computed on the underlying character lists. -/
def strEndsWith (s suffix : String) : Bool :=
  decide (suffix.data.length ≤ s.data.length) &&
    (s.data.drop (s.data.length - suffix.data.length) == suffix.data)

/-- Python `str.lower()`, computed characterwise on the underlying list. -/
def lowercase (s : String) : String :=
  String.mk (s.data.map Char.toLower)

/-- Modelled from the spec: `pluralize` is imported from the external
`pattern.en` library (models.py line 8), whose code is not part of this
repository; the spec prescribes the minimal English rule set (append `es`
after `s`, `x`, `ch`, `sh`; consonant plus `y` becomes `ies`; otherwise
append `s`), sufficient for the type names occurring here. -/
def pluralize (s : String) : String :=
  if strEndsWith s "s" || strEndsWith s "x" || strEndsWith s "ch" ||
      strEndsWith s "sh"
  then s ++ "es"
  else if strEndsWith s "y" &&
      (match s.data.reverse with
       | _ :: c :: _ => !(isVowel c)
       | _ => false)
  then String.mk (s.data.dropLast) ++ "ies"
  else s ++ "s"

/-- `Base.__tablename__` and `ElectionBase.__tablename__` (models.py lines
16-19 and 166-169): the storage collection name of a record type is the
pluralized lowercase of its type name. -/
def collection_name (typeName : String) : String :=
  pluralize (lowercase typeName)

/-- The attribute read followed by the string conversion for one field:
`none` exactly when `str(getattr(self, key))` would not produce a string
(either read failure or conversion failure). -/
def fieldStr (r : Record) (key : String) : Option String :=
  (pygetattr r key).bind strOf

/-- The per-field contribution of one iteration of the `only_true` loop,
for a field `f` whose attribute value is `val` (models.py lines 156-162). -/
def only_trueChunk (f : String) (val : Value) : List Entry :=
  if pyEq val (.VBool true) then [Entry.name f]
  else if pyEq val (.VStr "") then []
  else if f == "music" then [Entry.kv "music" val]
  else if f == "languages" then [Entry.kv "languages" val]
  else []

/-- A `Volunteer` record carrying every declared column, each flag holding
its declared default `False` unless overridden. -/
def mkVolunteer (overrides : List (String × Value)) : Record :=
  ⟨volunteerColumns,
   volunteerColumns.map (fun c => (c, (overrides.lookup c).getD (.VBool false)))⟩

/-- The spec scenario record: `bible_study` true, `music` set to `guitar`,
`languages` empty, every other flag at its default `False`. -/
def volunteerScenario : Record :=
  mkVolunteer [("bible_study", .VBool true), ("music", .VStr "guitar"),
    ("languages", .VStr "")]

/-- A record whose only active flag is `buddy_program`; the free-text
fields are empty. -/
def volunteerBuddy : Record :=
  mkVolunteer [("buddy_program", .VBool true), ("music", .VStr ""),
    ("languages", .VStr "")]

/-- A record whose `music` field still holds its declared default `False`;
`languages` is empty and every flag is `False`. -/
def volunteerMusicDefault : Record :=
  mkVolunteer [("languages", .VStr "")]

/-- A `Profile` record carrying every declared column, defaulting each
field to a populated string unless overridden. -/
def mkProfile (overrides : List (String × Value)) : Record :=
  ⟨profileColumns,
   profileColumns.map (fun c => (c, (overrides.lookup c).getD (.VStr "x")))⟩

/-- The spec scenario profile: `jdoe`, `Jane Doe`, five views, other fields
populated. -/
def profileJdoe : Record :=
  mkProfile [("username", .VStr "jdoe"), ("full_name", .VStr "Jane Doe"),
    ("photo", .VStr "p.jpg"), ("email", .VStr "jdoe@example.com"),
    ("views", .VInt 5)]

/-- A small concrete record used to instantiate the general theorems. -/
def sampleRecord : Record :=
  ⟨["id", "wwuid", "username"],
   [("id", .VStr "u1"), ("wwuid", .VStr "1234567"),
    ("username", .VStr "alice")]⟩

/-- A second record holding the same columns and field values as
`sampleRecord`. -/
def sampleRecordCopy : Record :=
  ⟨["id", "wwuid", "username"],
   [("id", .VStr "u1"), ("wwuid", .VStr "1234567"),
    ("username", .VStr "alice")]⟩

/-- Options that skip `wwuid` and whose limit list explicitly names `id`. -/
def sampleOpts : JsonOptions :=
  { skipList := ["wwuid"], limitList := some ["username", "wwuid", "id"] }

/-- The empty options: no skip list, no limit list. -/
def emptyOpts : JsonOptions := {}

/-- Options whose limit list names a non-attribute. -/
def ghostOpts : JsonOptions := { limitList := some ["ghost"] }

/-- A record one of whose fields holds a value that cannot be converted to
a string. -/
def opaqueRecord : Record :=
  ⟨["id", "good", "bad"],
   [("id", .VStr "i1"), ("good", .VStr "fine"), ("bad", .VOpaque)]⟩

/-- Replacing the value at a key leaves the key list of a mapping unchanged. -/
theorem keysOf_replace (obj : List (String × String)) (key val : String) :
    keysOf (obj.map (fun p => if p.1 == key then (key, val) else p)) =
      keysOf obj := by
  induction obj with
  | nil => rfl
  | cons p rest ih =>
    by_cases h : p.1 == key
    · have hk : p.1 = key := by simpa using h
      simp only [keysOf, List.map_cons, if_pos h] at *
      rw [ih, hk]
    · simp only [keysOf, List.map_cons, if_neg h] at *
      rw [ih]

/-- Membership in the key list after a Python dict assignment. -/
theorem mem_keysOf_dictInsert (obj : List (String × String)) (key val k : String) :
    k ∈ keysOf (dictInsert obj key val) ↔ k = key ∨ k ∈ keysOf obj := by
  unfold dictInsert
  by_cases h : obj.any (fun p => p.1 == key)
  · rw [if_pos h, keysOf_replace]
    constructor
    · exact Or.inr
    · rintro (rfl | hk)
      · obtain ⟨p, hp, hpk⟩ := List.any_eq_true.mp h
        have : p.1 = k := by simpa using hpk
        exact this ▸ List.mem_map_of_mem Prod.fst hp
      · exact hk
  · rw [if_neg h]
    simp only [keysOf, List.map_append, List.map_cons, List.map_nil,
      List.mem_append, List.mem_cons, List.not_mem_nil, or_false]
    exact Or.comm


/-- Unfolding the `Base.to_json` loop at a skipped key. -/
theorem to_jsonGo_cons_skip (r : Record) (skip : List String) (key : String)
    (rest : List String) (acc : List (String × String)) (hs : key ∈ skip) :
    Base.to_jsonGo r skip (key :: rest) acc = Base.to_jsonGo r skip rest acc := by
  simp only [Base.to_jsonGo]
  rw [if_pos hs]

/-- Unfolding the `Base.to_json` loop at a key that is not an attribute. -/
theorem to_jsonGo_cons_missing (r : Record) (skip : List String) (key : String)
    (rest : List String) (acc : List (String × String))
    (hs : key ∉ skip) (hg : pygetattr r key = none) :
    Base.to_jsonGo r skip (key :: rest) acc = .error "AttributeError" := by
  simp only [Base.to_jsonGo]
  rw [if_neg hs, hg]

/-- Unfolding the `Base.to_json` loop at a key whose value converts. -/
theorem to_jsonGo_cons_conv (r : Record) (skip : List String) (key : String)
    (rest : List String) (acc : List (String × String)) (v : Value) (s : String)
    (hs : key ∉ skip) (hg : pygetattr r key = some v) (hc : strOf v = some s) :
    Base.to_jsonGo r skip (key :: rest) acc =
      Base.to_jsonGo r skip rest (dictInsert acc key s) := by
  simp only [Base.to_jsonGo]
  rw [if_neg hs, hg]
  show (match strOf v with
        | some s => Base.to_jsonGo r skip rest (dictInsert acc key s)
        | none => Base.to_jsonGo r skip rest acc) = _
  rw [hc]

/-- Unfolding the `Base.to_json` loop at a key whose value fails to convert. -/
theorem to_jsonGo_cons_fail (r : Record) (skip : List String) (key : String)
    (rest : List String) (acc : List (String × String)) (v : Value)
    (hs : key ∉ skip) (hg : pygetattr r key = some v) (hc : strOf v = none) :
    Base.to_jsonGo r skip (key :: rest) acc = Base.to_jsonGo r skip rest acc := by
  simp only [Base.to_jsonGo]
  rw [if_neg hs, hg]
  show (match strOf v with
        | some s => Base.to_jsonGo r skip rest (dictInsert acc key s)
        | none => Base.to_jsonGo r skip rest acc) = _
  rw [hc]

/-- Unfolding the `ElectionBase.to_json` loop at a skipped key. -/
theorem election_jsonGo_cons_skip (r : Record) (skip : List String) (key : String)
    (rest : List String) (acc : List (String × String)) (hs : key ∈ skip) :
    ElectionBase.to_jsonGo r skip (key :: rest) acc =
      ElectionBase.to_jsonGo r skip rest acc := by
  simp only [ElectionBase.to_jsonGo]
  rw [if_pos hs]

/-- Unfolding the `ElectionBase.to_json` loop at a key that is not an
attribute. -/
theorem election_jsonGo_cons_missing (r : Record) (skip : List String)
    (key : String) (rest : List String) (acc : List (String × String))
    (hs : key ∉ skip) (hg : pygetattr r key = none) :
    ElectionBase.to_jsonGo r skip (key :: rest) acc = .error "AttributeError" := by
  simp only [ElectionBase.to_jsonGo]
  rw [if_neg hs, hg]

/-- Unfolding the `ElectionBase.to_json` loop at a key whose value converts. -/
theorem election_jsonGo_cons_conv (r : Record) (skip : List String) (key : String)
    (rest : List String) (acc : List (String × String)) (v : Value) (s : String)
    (hs : key ∉ skip) (hg : pygetattr r key = some v) (hc : strOf v = some s) :
    ElectionBase.to_jsonGo r skip (key :: rest) acc =
      ElectionBase.to_jsonGo r skip rest (dictInsert acc key s) := by
  simp only [ElectionBase.to_jsonGo]
  rw [if_neg hs, hg]
  show (match strOf v with
        | some s => ElectionBase.to_jsonGo r skip rest (dictInsert acc key s)
        | none => ElectionBase.to_jsonGo r skip rest acc) = _
  rw [hc]

/-- Unfolding the `ElectionBase.to_json` loop at a key whose value fails to
convert. -/
theorem election_jsonGo_cons_fail (r : Record) (skip : List String) (key : String)
    (rest : List String) (acc : List (String × String)) (v : Value)
    (hs : key ∉ skip) (hg : pygetattr r key = some v) (hc : strOf v = none) :
    ElectionBase.to_jsonGo r skip (key :: rest) acc =
      ElectionBase.to_jsonGo r skip rest acc := by
  simp only [ElectionBase.to_jsonGo]
  rw [if_neg hs, hg]
  show (match strOf v with
        | some s => ElectionBase.to_jsonGo r skip rest (dictInsert acc key s)
        | none => ElectionBase.to_jsonGo r skip rest acc) = _
  rw [hc]

/-- Key characterization of the `Base.to_json` loop: on success, a key is in
the output exactly when it was already accumulated or is a requested,
non-skipped key whose attribute exists and converts to a string. -/
theorem to_jsonGo_ok_mem_keys (r : Record) (skip : List String) :
    ∀ (ks : List String) (acc obj : List (String × String)),
      Base.to_jsonGo r skip ks acc = .ok obj →
      ∀ k, k ∈ keysOf obj ↔
        (k ∈ keysOf acc ∨
          (k ∈ ks ∧ k ∉ skip ∧
            ∃ v, pygetattr r k = some v ∧ (strOf v).isSome = true)) := by
  intro ks
  induction ks with
  | nil =>
    intro acc obj h k
    simp only [Base.to_jsonGo] at h
    injection h with h
    subst h
    simp
  | cons key rest ih =>
    intro acc obj h k
    by_cases hskip : key ∈ skip
    · rw [to_jsonGo_cons_skip r skip key rest acc hskip] at h
      rw [ih acc obj h k]
      constructor
      · rintro (h1 | ⟨h1, h2, h3⟩)
        · exact Or.inl h1
        · exact Or.inr ⟨List.mem_cons_of_mem _ h1, h2, h3⟩
      · rintro (h1 | ⟨h1, h2, h3⟩)
        · exact Or.inl h1
        · rcases List.mem_cons.mp h1 with rfl | h1
          · exact absurd hskip h2
          · exact Or.inr ⟨h1, h2, h3⟩
    · cases hget : pygetattr r key with
      | none =>
        rw [to_jsonGo_cons_missing r skip key rest acc hskip hget] at h
        exact Except.noConfusion h
      | some v =>
        cases hstr : strOf v with
        | some s =>
          rw [to_jsonGo_cons_conv r skip key rest acc v s hskip hget hstr] at h
          rw [ih _ obj h k, mem_keysOf_dictInsert]
          constructor
          · rintro ((rfl | h1) | ⟨h1, h2, h3⟩)
            · exact Or.inr ⟨List.mem_cons_self _ _, hskip, v, hget,
                by rw [hstr]; rfl⟩
            · exact Or.inl h1
            · exact Or.inr ⟨List.mem_cons_of_mem _ h1, h2, h3⟩
          · rintro (h1 | ⟨h1, h2, h3⟩)
            · exact Or.inl (Or.inr h1)
            · rcases List.mem_cons.mp h1 with rfl | h1
              · exact Or.inl (Or.inl rfl)
              · exact Or.inr ⟨h1, h2, h3⟩
        | none =>
          rw [to_jsonGo_cons_fail r skip key rest acc v hskip hget hstr] at h
          rw [ih acc obj h k]
          constructor
          · rintro (h1 | ⟨h1, h2, h3⟩)
            · exact Or.inl h1
            · exact Or.inr ⟨List.mem_cons_of_mem _ h1, h2, h3⟩
          · rintro (h1 | ⟨h1, h2, h3⟩)
            · exact Or.inl h1
            · rcases List.mem_cons.mp h1 with rfl | h1
              · obtain ⟨v2, hv2, hs2⟩ := h3
                rw [hget] at hv2
                injection hv2 with hv2
                subst hv2
                rw [hstr] at hs2
                exact Bool.noConfusion hs2
              · exact Or.inr ⟨h1, h2, h3⟩

/-- When every requested, non-skipped key is an attribute, the `to_json`
loop terminates normally. -/
theorem to_jsonGo_ok_of_readable (r : Record) (skip : List String) :
    ∀ (ks : List String) (acc : List (String × String)),
      (∀ k, k ∈ ks → k ∉ skip → (pygetattr r k).isSome = true) →
      ∃ obj, Base.to_jsonGo r skip ks acc = .ok obj := by
  intro ks
  induction ks with
  | nil =>
    intro acc _
    exact ⟨acc, rfl⟩
  | cons key rest ih =>
    intro acc hread
    have hrest : ∀ k, k ∈ rest → k ∉ skip → (pygetattr r k).isSome = true :=
      fun k hk => hread k (List.mem_cons_of_mem _ hk)
    by_cases hskip : key ∈ skip
    · obtain ⟨obj, hobj⟩ := ih acc hrest
      exact ⟨obj, by rw [to_jsonGo_cons_skip r skip key rest acc hskip]; exact hobj⟩
    · have hsome := hread key (List.mem_cons_self _ _) hskip
      cases hget : pygetattr r key with
      | none =>
        rw [hget] at hsome
        exact Bool.noConfusion hsome
      | some v =>
        cases hstr : strOf v with
        | some s =>
          obtain ⟨obj, hobj⟩ := ih (dictInsert acc key s) hrest
          exact ⟨obj, by
            rw [to_jsonGo_cons_conv r skip key rest acc v s hskip hget hstr]
            exact hobj⟩
        | none =>
          obtain ⟨obj, hobj⟩ := ih acc hrest
          exact ⟨obj, by
            rw [to_jsonGo_cons_fail r skip key rest acc v hskip hget hstr]
            exact hobj⟩

/-- If some requested, non-skipped key is not an attribute of the record,
the `to_json` loop raises. -/
theorem to_jsonGo_error_of_missing (r : Record) (skip : List String) :
    ∀ (ks : List String) (acc : List (String × String)) (k : String),
      k ∈ ks → k ∉ skip → pygetattr r k = none →
      ∃ e, Base.to_jsonGo r skip ks acc = .error e := by
  intro ks
  induction ks with
  | nil =>
    intro acc k hk
    exact absurd hk (List.not_mem_nil k)
  | cons key rest ih =>
    intro acc k hk hskip hget
    by_cases hs : key ∈ skip
    · rcases List.mem_cons.mp hk with rfl | hk1
      · exact absurd hs hskip
      · obtain ⟨e, he⟩ := ih acc k hk1 hskip hget
        exact ⟨e, by rw [to_jsonGo_cons_skip r skip key rest acc hs]; exact he⟩
    · cases hg : pygetattr r key with
      | none =>
        exact ⟨"AttributeError", to_jsonGo_cons_missing r skip key rest acc hs hg⟩
      | some v =>
        rcases List.mem_cons.mp hk with rfl | hk1
        · rw [hget] at hg
          exact Option.noConfusion hg
        · cases hstr : strOf v with
          | some s =>
            obtain ⟨e, he⟩ := ih (dictInsert acc key s) k hk1 hskip hget
            exact ⟨e, by
              rw [to_jsonGo_cons_conv r skip key rest acc v s hs hg hstr]
              exact he⟩
          | none =>
            obtain ⟨e, he⟩ := ih acc k hk1 hskip hget
            exact ⟨e, by
              rw [to_jsonGo_cons_fail r skip key rest acc v hs hg hstr]
              exact he⟩

/-- The loops of `Base.to_json` and `ElectionBase.to_json` agree on every
input. -/
theorem to_jsonGo_election_eq (r : Record) (skip : List String) :
    ∀ (ks : List String) (acc : List (String × String)),
      Base.to_jsonGo r skip ks acc = ElectionBase.to_jsonGo r skip ks acc := by
  intro ks
  induction ks with
  | nil => intro acc; rfl
  | cons key rest ih =>
    intro acc
    by_cases hs : key ∈ skip
    · rw [to_jsonGo_cons_skip r skip key rest acc hs,
        election_jsonGo_cons_skip r skip key rest acc hs]
      exact ih acc
    · cases hget : pygetattr r key with
      | none =>
        rw [to_jsonGo_cons_missing r skip key rest acc hs hget,
          election_jsonGo_cons_missing r skip key rest acc hs hget]
      | some v =>
        cases hstr : strOf v with
        | some s =>
          rw [to_jsonGo_cons_conv r skip key rest acc v s hs hget hstr,
            election_jsonGo_cons_conv r skip key rest acc v s hs hget hstr]
          exact ih _
        | none =>
          rw [to_jsonGo_cons_fail r skip key rest acc v hs hget hstr,
            election_jsonGo_cons_fail r skip key rest acc v hs hget hstr]
          exact ih acc

/-- Unfolding the `only_true` loop at a field that is not an attribute. -/
theorem only_trueGo_cons_missing (r : Record) (g : String) (rest : List String)
    (hg : pygetattr r g = none) :
    Volunteer.only_trueGo r (g :: rest) = Volunteer.only_trueGo r rest := by
  simp only [Volunteer.only_trueGo]
  rw [hg]

/-- Unfolding the `only_true` loop at a field whose attribute value is
known: the iteration contributes its chunk. -/
theorem only_trueGo_cons_val (r : Record) (g : String) (rest : List String)
    (w : Value) (hg : pygetattr r g = some w) :
    Volunteer.only_trueGo r (g :: rest) =
      only_trueChunk g w ++ Volunteer.only_trueGo r rest := by
  simp only [Volunteer.only_trueGo]
  rw [hg]
  rfl

/-- A name entry occurs in an iteration chunk exactly for the scanned field
itself, when its value is Python-equal to `True`. -/
theorem name_mem_only_trueChunk (g f : String) (w : Value) :
    Entry.name f ∈ only_trueChunk g w ↔
      f = g ∧ pyEq w (Value.VBool true) = true := by
  unfold only_trueChunk
  by_cases h1 : pyEq w (Value.VBool true) = true
  · rw [if_pos h1]
    simp [h1]
  · rw [if_neg h1]
    by_cases h2 : pyEq w (Value.VStr "") = true
    · rw [if_pos h2]
      simp [h1]
    · rw [if_neg h2]
      by_cases h3 : (g == "music") = true
      · rw [if_pos h3]
        simp [h1]
      · rw [if_neg h3]
        by_cases h4 : (g == "languages") = true
        · rw [if_pos h4]
          simp [h1]
        · rw [if_neg h4]
          simp [h1]

/-- A field name occurs in the `only_true` output exactly when the field is
scanned and its value is Python-equal to `True`. -/
theorem only_trueGo_name_mem (r : Record) :
    ∀ (fs : List String) (f : String) (v : Value),
      pygetattr r f = some v →
      (Entry.name f ∈ Volunteer.only_trueGo r fs ↔
        f ∈ fs ∧ pyEq v (Value.VBool true) = true) := by
  intro fs
  induction fs with
  | nil =>
    intro f v hv
    simp [Volunteer.only_trueGo]
  | cons g rest ih =>
    intro f v hv
    cases hg : pygetattr r g with
    | none =>
      rw [only_trueGo_cons_missing r g rest hg, ih f v hv]
      constructor
      · rintro ⟨h1, h2⟩
        exact ⟨List.mem_cons_of_mem _ h1, h2⟩
      · rintro ⟨h1, h2⟩
        rcases List.mem_cons.mp h1 with rfl | h1
        · rw [hv] at hg
          exact Option.noConfusion hg
        · exact ⟨h1, h2⟩
    | some w =>
      rw [only_trueGo_cons_val r g rest w hg, List.mem_append,
        name_mem_only_trueChunk g f w, ih f v hv]
      constructor
      · rintro (⟨rfl, h2⟩ | ⟨h1, h2⟩)
        · rw [hg] at hv
          injection hv with hv
          subst hv
          exact ⟨List.mem_cons_self _ _, h2⟩
        · exact ⟨List.mem_cons_of_mem _ h1, h2⟩
      · rintro ⟨h1, h2⟩
        rcases List.mem_cons.mp h1 with rfl | h1
        · rw [hg] at hv
          injection hv with hv
          subst hv
          exact Or.inl ⟨rfl, h2⟩
        · exact Or.inr ⟨h1, h2⟩

/-- A successful field read-and-convert implies the attribute read alone
succeeds. -/
theorem isSome_pygetattr_of_fieldStr {r : Record} {k : String}
    (h : (fieldStr r k).isSome = true) : (pygetattr r k).isSome = true := by
  unfold fieldStr at h
  cases hg : pygetattr r k with
  | none =>
    rw [hg] at h
    exact Bool.noConfusion h
  | some v => rfl

/-- Reducing `fieldStr` once the attribute value is known. -/
theorem fieldStr_eq_strOf {r : Record} {k : String} {v : Value}
    (hv : pygetattr r k = some v) : fieldStr r k = strOf v := by
  unfold fieldStr
  rw [hv]
  rfl

/-- C1: for every record and options, every key of a successful
`Base.to_json` output lies in the effective limit list (the supplied
`limitList`, or all declared columns when it is absent), is outside the
supplied skip list, and is not the identifier field `id`. -/
theorem to_json_keys_in_limit_minus_skip (r : Record) (opts : JsonOptions)
    (obj : List (String × String)) (h : Base.to_json r opts = .ok obj) :
    ∀ k, k ∈ keysOf obj →
      k ∈ opts.limitList.getD r.columns ∧ k ∉ opts.skipList ∧ k ≠ "id" := by
  intro k hk
  have hchar := (to_jsonGo_ok_mem_keys r ("id" :: opts.skipList)
    (opts.limitList.getD r.columns) [] obj h k).mp hk
  rcases hchar with h1 | ⟨h1, h2, _⟩
  · exact absurd h1 (by simp [keysOf])
  · refine ⟨h1, fun hsk => h2 (List.mem_cons_of_mem _ hsk), fun hid => h2 ?_⟩
    rw [hid]
    exact List.mem_cons_self _ _

/-- Witness for C1 on a concrete record, skip list and limit list. -/
theorem to_json_keys_in_limit_minus_skip_witness :
    "username" ∈ sampleOpts.limitList.getD sampleRecord.columns ∧
    "username" ∉ sampleOpts.skipList ∧ "username" ≠ "id" :=
  to_json_keys_in_limit_minus_skip sampleRecord sampleOpts
    [("username", "alice")] rfl "username" (by decide)

/-- C2: when every requested field is an attribute and exactly the field
`k0` fails string conversion, `Base.to_json` still returns a mapping; it is
missing `k0` and contains every other requested key. -/
theorem to_json_conversion_failure_drops_only_that_field (r : Record)
    (opts : JsonOptions) (k0 : String)
    (hread : ∀ k, k ∈ opts.limitList.getD r.columns →
      k ∉ ("id" :: opts.skipList) → (pygetattr r k).isSome = true)
    (_hk0 : k0 ∈ opts.limitList.getD r.columns)
    (_hk0s : k0 ∉ ("id" :: opts.skipList))
    (hfail : fieldStr r k0 = none)
    (hrest : ∀ k, k ∈ opts.limitList.getD r.columns →
      k ∉ ("id" :: opts.skipList) → k ≠ k0 → (fieldStr r k).isSome = true) :
    ∃ obj, Base.to_json r opts = .ok obj ∧ k0 ∉ keysOf obj ∧
      ∀ k, k ∈ opts.limitList.getD r.columns → k ∉ ("id" :: opts.skipList) →
        k ≠ k0 → k ∈ keysOf obj := by
  obtain ⟨obj, hobj⟩ := to_jsonGo_ok_of_readable r ("id" :: opts.skipList)
    (opts.limitList.getD r.columns) [] hread
  refine ⟨obj, hobj, ?_, ?_⟩
  · intro hmem
    have hchar := (to_jsonGo_ok_mem_keys r ("id" :: opts.skipList)
      (opts.limitList.getD r.columns) [] obj hobj k0).mp hmem
    rcases hchar with h1 | ⟨_, _, v, hv, hs⟩
    · exact absurd h1 (by simp [keysOf])
    · rw [fieldStr_eq_strOf hv] at hfail
      rw [hfail] at hs
      exact Bool.noConfusion hs
  · intro k hk hks hkne
    have hs := hread k hk hks
    cases hv : pygetattr r k with
    | none =>
      rw [hv] at hs
      exact Bool.noConfusion hs
    | some v =>
      refine (to_jsonGo_ok_mem_keys r ("id" :: opts.skipList)
        (opts.limitList.getD r.columns) [] obj hobj k).mpr
        (Or.inr ⟨hk, hks, v, hv, ?_⟩)
      rw [← fieldStr_eq_strOf hv]
      exact hrest k hk hks hkne

/-- Witness for C2 on a record with one unconvertible field. -/
theorem to_json_conversion_failure_drops_only_that_field_witness :
    ∃ obj, Base.to_json opaqueRecord emptyOpts = .ok obj ∧
      "bad" ∉ keysOf obj ∧
      ∀ k, k ∈ emptyOpts.limitList.getD opaqueRecord.columns →
        k ∉ ("id" :: emptyOpts.skipList) → k ≠ "bad" → k ∈ keysOf obj :=
  to_json_conversion_failure_drops_only_that_field opaqueRecord emptyOpts "bad"
    (by decide) (by decide) (by decide) rfl (by decide)

/-- C3: a successful `Base.to_json` output never contains the identifier
field `id` as a key, for every record and every options value, including a
limit list that explicitly names `id`. -/
theorem to_json_never_contains_id (r : Record) (opts : JsonOptions)
    (obj : List (String × String)) (h : Base.to_json r opts = .ok obj) :
    "id" ∉ keysOf obj := by
  intro hmem
  have hchar := (to_jsonGo_ok_mem_keys r ("id" :: opts.skipList)
    (opts.limitList.getD r.columns) [] obj h "id").mp hmem
  rcases hchar with h1 | ⟨_, h2, _⟩
  · exact absurd h1 (by simp [keysOf])
  · exact h2 (List.mem_cons_self _ _)

/-- Witness for C3 with a limit list that explicitly names `id`. -/
theorem to_json_never_contains_id_witness :
    "id" ∉ keysOf [("username", "alice")] :=
  to_json_never_contains_id sampleRecord sampleOpts [("username", "alice")] rfl

/-- C4 counterexample: `buddy_program` is a declared boolean survey flag of
the `Volunteer` type, yet on a record where it is the only true flag the
`only_true` view returns nothing — the enumerated field list does not cover
every declared boolean survey flag. -/
theorem only_true_misses_buddy_program :
    "buddy_program" ∈ volunteerBoolColumns ∧
    pygetattr volunteerBuddy "buddy_program" = some (Value.VBool true) ∧
    Entry.name "buddy_program" ∉ Volunteer.only_true volunteerBuddy := by
  refine ⟨by decide, rfl, ?_⟩
  have h0 : Volunteer.only_true volunteerBuddy = [] := rfl
  rw [h0]
  exact List.not_mem_nil _

/-- C4 (amended): `only_true` scans the explicit enumerated field list of
the source, which is a subset of the declared `Volunteer` columns but omits
the declared boolean flag `buddy_program`; a scanned field contributes its
own name exactly when its value is Python-equal to `True`; and the spec
scenario (only `bible_study` true, `music` set to `guitar`, `languages`
empty) yields exactly the name `bible_study` followed by the single-entry
mapping from `music` to `guitar`. -/
theorem only_true_amended :
    (∀ f, f ∈ Volunteer.only_true_fields → f ∈ volunteerColumns) ∧
    "buddy_program" ∈ volunteerBoolColumns ∧
    "buddy_program" ∉ Volunteer.only_true_fields ∧
    (∀ (r : Record) (f : String) (v : Value), pygetattr r f = some v →
      (Entry.name f ∈ Volunteer.only_true r ↔
        f ∈ Volunteer.only_true_fields ∧ pyEq v (Value.VBool true) = true)) ∧
    Volunteer.only_true volunteerScenario =
      [Entry.name "bible_study", Entry.kv "music" (Value.VStr "guitar")] := by
  refine ⟨by decide, by decide, by decide, ?_, rfl⟩
  intro r f v hv
  exact only_trueGo_name_mem r Volunteer.only_true_fields f v hv

/-- Witness for C4 (amended) at the scenario record. -/
theorem only_true_amended_witness :
    Entry.name "bible_study" ∈ Volunteer.only_true volunteerScenario :=
  (only_true_amended.2.2.2.1 volunteerScenario "bible_study"
    (Value.VBool true) rfl).mpr (by decide)

/-- C5: on a `Volunteer` whose `music` field still holds its declared
default `False` (and whose `languages` field is empty), `only_true` appends
the single-entry mapping from `music` to `False` — the claimed behaviour of
contributing an entry only for a non-empty string value does not hold,
because Python evaluates `False != ""` as true. -/
theorem only_true_music_default_entry :
    pygetattr volunteerMusicDefault "music" = some (Value.VBool false) ∧
    Volunteer.only_true volunteerMusicDefault =
      [Entry.kv "music" (Value.VBool false)] :=
  ⟨rfl, rfl⟩

/-- C6: for every `Profile` record whose five public fields read and
convert, `base_info` returns a mapping whose key set is exactly the five
public field names; on the spec scenario record the mapping is exactly the
five expected pairs, with `views` rendered as the string `5`. -/
theorem base_info_keys_exact :
    (∀ r : Record,
      (∀ k, k ∈ ["username", "full_name", "photo", "email", "views"] →
        (fieldStr r k).isSome = true) →
      ∃ obj, Profile.base_info r = .ok obj ∧
        ∀ k, k ∈ keysOf obj ↔
          k ∈ ["username", "full_name", "photo", "email", "views"]) ∧
    Profile.base_info profileJdoe =
      .ok [("username", "jdoe"), ("full_name", "Jane Doe"), ("photo", "p.jpg"),
           ("email", "jdoe@example.com"), ("views", "5")] := by
  constructor
  · intro r h
    have hread : ∀ k, k ∈ ["username", "full_name", "photo", "email", "views"] →
        k ∉ ("id" :: ([] : List String)) → (pygetattr r k).isSome = true :=
      fun k hk _ => isSome_pygetattr_of_fieldStr (h k hk)
    obtain ⟨obj, hobj⟩ := to_jsonGo_ok_of_readable r ("id" :: [])
      ["username", "full_name", "photo", "email", "views"] [] hread
    refine ⟨obj, hobj, fun k => ?_⟩
    rw [to_jsonGo_ok_mem_keys r ("id" :: [])
      ["username", "full_name", "photo", "email", "views"] [] obj hobj k]
    constructor
    · rintro (h1 | ⟨h1, _, _⟩)
      · exact absurd h1 (by simp [keysOf])
      · exact h1
    · intro hk
      refine Or.inr ⟨hk, ?_, ?_⟩
      · intro hmem
        rcases List.mem_cons.mp hmem with rfl | h2
        · exact absurd hk (by decide)
        · exact absurd h2 (List.not_mem_nil k)
      · have h3 := h k hk
        have h4 := isSome_pygetattr_of_fieldStr h3
        cases hv : pygetattr r k with
        | none =>
          rw [hv] at h4
          exact Bool.noConfusion h4
        | some v =>
          refine ⟨v, rfl, ?_⟩
          rw [← fieldStr_eq_strOf hv]
          exact h3
  · rfl

/-- Witness for C6 at the scenario profile. -/
theorem base_info_keys_exact_witness :
    ∃ obj, Profile.base_info profileJdoe = .ok obj ∧
      ∀ k, k ∈ keysOf obj ↔
        k ∈ ["username", "full_name", "photo", "email", "views"] :=
  base_info_keys_exact.1 profileJdoe (by decide)

/-- C7 counterexample: two distinct type names can map to the same
collection name, so `collection_name` is not injective on type names. -/
theorem collection_name_not_injective :
    collection_name "USER" = collection_name "User" ∧ "USER" ≠ "User" :=
  ⟨rfl, by decide⟩

/-- C7 (amended): the collection name is a pure function of the type name,
it maps the four type names of this repository to `users`, `profiles`,
`volunteers` and `elections`, and on those four names the images are
pairwise distinct; injectivity fails in general (names differing only in
case collide). -/
theorem collection_name_values :
    collection_name "User" = "users" ∧
    collection_name "Profile" = "profiles" ∧
    collection_name "Volunteer" = "volunteers" ∧
    collection_name "Election" = "elections" ∧
    List.Pairwise (fun a b => collection_name a ≠ collection_name b)
      ["User", "Profile", "Volunteer", "Election"] := by
  refine ⟨rfl, rfl, rfl, rfl, ?_⟩
  decide

/-- C8: serialization is deterministic in the record state and the options:
two records with the same declared columns and the same attribute values
serialize identically, so two calls on an unmutated record agree. -/
theorem to_json_deterministic (r1 r2 : Record) (opts : JsonOptions)
    (hcols : r1.columns = r2.columns) (hattrs : r1.attrs = r2.attrs) :
    Base.to_json r1 opts = Base.to_json r2 opts := by
  have h12 : r1 = r2 := by
    cases r1
    cases r2
    exact congr (congrArg Record.mk hcols) hattrs
  rw [h12]

/-- Witness for C8 on two equal concrete records. -/
theorem to_json_deterministic_witness :
    Base.to_json sampleRecord sampleOpts =
      Base.to_json sampleRecordCopy sampleOpts :=
  to_json_deterministic sampleRecord sampleRecordCopy sampleOpts rfl rfl

/-- C9: the serialization routines of the two hierarchies are extensionally
equal — `Base.to_json` and `ElectionBase.to_json` produce the same result
on every record and every options value. -/
theorem to_json_base_election_agree (r : Record) (opts : JsonOptions) :
    Base.to_json r opts = ElectionBase.to_json r opts :=
  to_jsonGo_election_eq r ("id" :: opts.skipList)
    (opts.limitList.getD r.columns) []

/-- C10: when the limit list names a non-skipped key that is not an
attribute of the record, `Base.to_json` raises instead of omitting it: the
attribute read sits outside the per-field conversion guard. -/
theorem to_json_missing_attribute_raises (r : Record) (opts : JsonOptions)
    (k : String) (hk : k ∈ opts.limitList.getD r.columns)
    (hks : k ∉ ("id" :: opts.skipList)) (hget : pygetattr r k = none) :
    ∃ e, Base.to_json r opts = .error e :=
  to_jsonGo_error_of_missing r ("id" :: opts.skipList)
    (opts.limitList.getD r.columns) [] k hk hks hget

/-- Witness for C10 with a limit list naming a non-attribute. -/
theorem to_json_missing_attribute_raises_witness :
    ∃ e, Base.to_json sampleRecord ghostOpts = .error e :=
  to_json_missing_attribute_raises sampleRecord ghostOpts "ghost"
    (by decide) (by decide) rfl
